import Mathlib

/-!
Shallow embedding of the verification core of a Discord competitive-programming
account-verification bot.  The embedding covers:

* `src/utils/time.js` — expiration and remaining-time arithmetic;
* `src/services/codeforces.service.js` — the Codeforces submission matcher and
  the rate-limit gate;
* `src/services/codechef.service.js` — the CodeChef submission matcher and its
  rate-limit gate;
* `src/utils/randomProblem.js` — the cached Codeforces problem catalog and
  random selection;
* `src/commands/verify.js` — the per-session verification step
  (expiration check, matcher dispatch, finalization and its failure handling)
  and `parseCodeforcesProblemId`;
* `src/commands/link.js` together with the persistence collaborator
  (`supabase.client.js`, modelled from the spec where its code is not
  available) — session creation and superseding.

Times are integers: milliseconds since the epoch for `Date` values, seconds
for judge submission timestamps.  JavaScript `Math.floor` on a quotient of
integers is floor division; network and persistence effects are passed in as
explicit `Except`/parameter values.
-/

namespace CPBot

/-- Embedding of time.js `isExpired(expiresAt)`: `new Date() > expiration`,
with the current instant `now` passed explicitly (milliseconds). -/
def isExpired (expiresAt now : Int) : Bool :=
  expiresAt < now

/-- Remaining-time record returned by time.js `getRemainingTime`. -/
structure RemainingTime where
  minutes : Nat
  seconds : Nat
  formatted : String
  deriving Repr, DecidableEq

/-- Embedding of time.js `getRemainingTime(expiresAt)` at instant `now` (ms):
`diff = expiration - now`; if `diff <= 0` the result is `0m 0s "Expired"`,
otherwise minutes = `Math.floor(diff / 60000)` and
seconds = `Math.floor((diff % 60000) / 1000)` (on a positive integer these
floors are natural-number division). -/
def getRemainingTime (expiresAt now : Int) : RemainingTime :=
  let diff := expiresAt - now
  if diff ≤ 0 then
    ⟨0, 0, "Expired"⟩
  else
    let m := diff.toNat
    let minutes := m / 60000
    let seconds := m % 60000 / 1000
    ⟨minutes, seconds, toString minutes ++ "m " ++ toString seconds ++ "s"⟩

/-- Embedding of time.js `isSubmissionAfterStart(submissionTime, startedAt)`:
`submissionTime >= Math.floor(new Date(startedAt).getTime() / 1000)`
(`submissionTime` in seconds, `startedAt` in milliseconds; `Math.floor` of the
quotient is floor division `Int.fdiv`). -/
def isSubmissionAfterStart (submissionTime : Int) (startedAt : Int) : Bool :=
  Int.fdiv startedAt 1000 ≤ submissionTime

/-- Embedding of JavaScript `s.toUpperCase()` on the ASCII strings this bot
handles (problem indices, verdicts, problem codes): uppercase each character. -/
def jsToUpper (s : String) : String :=
  String.mk (s.data.map Char.toUpper)

/-- Embedding of JavaScript `s.toLowerCase()` on ASCII strings. -/
def jsToLower (s : String) : String :=
  String.mk (s.data.map Char.toLower)

/-- A Codeforces submission as returned by
codeforces.service.js `getRecentSubmissions` (fields used by the matcher).
`contestId` and `verdict` are optional: the API omits them on some rows, and
in JavaScript `undefined === x` is false for every number/string `x`. -/
structure CFSubmission where
  contestId : Option Nat
  problemIndex : String
  verdict : Option String
  creationTimeSeconds : Int
  deriving Repr, DecidableEq

/-- Result record of the Codeforces
`checkCompilationErrorSubmission` (`verified`, `submission`, `message`). -/
structure CFCheckResult where
  verified : Bool
  submission : Option CFSubmission
  message : String
  deriving Repr, DecidableEq

/-- The problem-reference test of the Codeforces matcher:
`sub.contestId === contestId && sub.problemIndex.toUpperCase() === problemIndex.toUpperCase()`. -/
def cfProblemMatch (sub : CFSubmission) (contestId : Nat) (problemIndex : String) : Bool :=
  sub.contestId == some contestId && jsToUpper sub.problemIndex == jsToUpper problemIndex

/-- The full predicate of the first `submissions.find` in the Codeforces
matcher: problem match, verdict exactly `"COMPILATION_ERROR"`, and submitted
at or after the verification start. -/
def cfQualifies (sub : CFSubmission) (contestId : Nat) (problemIndex : String)
    (startedAt : Int) : Bool :=
  cfProblemMatch sub contestId problemIndex &&
    sub.verdict == some "COMPILATION_ERROR" &&
    isSubmissionAfterStart sub.creationTimeSeconds startedAt

/-- The predicate of the second `submissions.find` (any submission to the
problem at or after start, verdict ignored). -/
def cfProblemAfterStart (sub : CFSubmission) (contestId : Nat) (problemIndex : String)
    (startedAt : Int) : Bool :=
  cfProblemMatch sub contestId problemIndex &&
    isSubmissionAfterStart sub.creationTimeSeconds startedAt

/-- JavaScript string interpolation of a possibly-undefined verdict. -/
def verdictDisplay : Option String → String
  | some v => v
  | none => "undefined"

/-- The mismatch message of the Codeforces matcher. -/
def cfMismatchMessage (v : String) : String :=
  "Found submission but verdict was \"" ++ v ++ "\" instead of \"COMPILATION_ERROR\""

/-- Embedding of codeforces.service.js `checkCompilationErrorSubmission`
applied to the fetched submission list: first `find` for a qualifying
Compilation Error, else `find` for any post-start submission to the problem
(mismatch), else the no-submission result. -/
def checkCompilationErrorSubmissionCF (subs : List CFSubmission) (contestId : Nat)
    (problemIndex : String) (startedAt : Int) : CFCheckResult :=
  match subs.find? (fun sub => cfQualifies sub contestId problemIndex startedAt) with
  | some s => ⟨true, some s, "Compilation Error submission found!"⟩
  | none =>
    match subs.find? (fun sub => cfProblemAfterStart sub contestId problemIndex startedAt) with
    | some s => ⟨false, some s, cfMismatchMessage (verdictDisplay s.verdict)⟩
    | none => ⟨false, none, "No submission found to the specified problem"⟩

/-- A CodeChef submission as produced by
codechef.service.js `getRecentSubmissions` (fields used by the matcher).
`date` is carried in the payload but never read by the matcher; `none` models
an absent field. -/
structure CCSubmission where
  problemCode : Option String
  result : Option String
  date : Option Int
  deriving Repr, DecidableEq

/-- Result record of the CodeChef `checkCompilationErrorSubmission`. -/
structure CCCheckResult where
  verified : Bool
  submission : Option CCSubmission
  message : String
  deriving Repr, DecidableEq

/-- Substring test on character lists: some suffix of the haystack starts
with the needle. -/
def listHasSub (needle : List Char) : List Char → Bool
  | [] => needle.isEmpty
  | c :: t => needle.isPrefixOf (c :: t) || listHasSub needle t

/-- Embedding of JavaScript `hay.includes(needle)`. -/
def strIncludes (hay needle : String) : Bool :=
  listHasSub needle.data hay.data

/-- The CodeChef matcher's problem test:
`sub.problemCode && sub.problemCode.toUpperCase() === problemCode.toUpperCase()`
(an absent or empty `problemCode` is falsy in JavaScript). -/
def ccProblemMatch (sub : CCSubmission) (problemCode : String) : Bool :=
  match sub.problemCode with
  | none => false
  | some pc => pc != "" && jsToUpper pc == jsToUpper problemCode

/-- The CodeChef matcher's verdict test:
`sub.result && (sub.result.toLowerCase().includes("compilation error") ||
sub.result.toLowerCase() === "ce" || sub.result === "compilation error")`. -/
def ccResultIsCE (sub : CCSubmission) : Bool :=
  match sub.result with
  | none => false
  | some r =>
    r != "" &&
      (strIncludes (jsToLower r) "compilation error" ||
        jsToLower r == "ce" || r == "compilation error")

/-- Embedding of codechef.service.js `checkCompilationErrorSubmission`.
`scrapeFoundCE` is the boolean of the direct status-page scrape
(`response.status === 200 && response.data` contains the username together
with a CE marker); `subs` is the list returned by the
`getRecentSubmissions` fallback.  The `username` and `startedAt` arguments
mirror the JavaScript signature; the function body never consults
`startedAt`. -/
def checkCompilationErrorSubmissionCC (username problemCode : String) (startedAt : Int)
    (scrapeFoundCE : Bool) (subs : List CCSubmission) : CCCheckResult :=
  if scrapeFoundCE then
    ⟨true, some ⟨some problemCode, some "compilation error", none⟩,
      "Compilation Error submission found!"⟩
  else
    match subs.find? (fun sub => ccProblemMatch sub problemCode && ccResultIsCE sub) with
    | some s => ⟨true, some s, "Compilation Error submission found!"⟩
    | none =>
      match subs.find? (fun sub => ccProblemMatch sub problemCode) with
      | some s =>
        ⟨false, some s,
          "Found submission but verdict was \"" ++ verdictDisplay s.result ++
            "\" instead of \"Compilation Error\""⟩
      | none =>
        ⟨false, none,
          "No submission found to the specified problem. Please make sure you submitted to the correct problem."⟩

/-- The character class `\d` of the problem-id regex (ASCII digit). -/
def isDigitChar (ch : Char) : Bool :=
  48 ≤ ch.toNat && ch.toNat ≤ 57

/-- The character class `[A-Za-z]` of the problem-id regex. -/
def isAsciiLetter (ch : Char) : Bool :=
  (65 ≤ ch.toNat && ch.toNat ≤ 90) || (97 ≤ ch.toNat && ch.toNat ≤ 122)

/-- Embedding of JavaScript `parseInt` on a string of ASCII digits. -/
def parseIntDecimal (l : List Char) : Nat :=
  l.foldl (fun a c => a * 10 + (c.toNat - 48)) 0

/-- Embedding of verify.js `parseCodeforcesProblemId`: match the anchored
regex `^(\d+)([A-Za-z]\d*)$` and return
`(parseInt(match[1]), match[2].toUpperCase())`.  The first group is a greedy
digit run; because the second group must start with a letter, backtracking
into the digit run can never produce a match, so matching succeeds exactly
when the maximal leading digit run is non-empty and the remainder is one
letter followed by digits.  `none` models the thrown
"Invalid problem ID format" error. -/
def parseCodeforcesProblemId (problemId : String) : Option (Nat × String) :=
  match problemId.data.takeWhile isDigitChar, problemId.data.dropWhile isDigitChar with
  | [], _ => none
  | _ :: _, [] => none
  | ds, c :: tail =>
    if isAsciiLetter c && tail.all isDigitChar then
      some (parseIntDecimal ds, jsToUpper (String.mk (c :: tail)))
    else none

/-- Rate-limit spacing of the Codeforces adapter (ms). -/
def CF_REQUEST_DELAY : Int := 250

/-- Rate-limit spacing of the CodeChef adapter (ms). -/
def CC_REQUEST_DELAY : Int := 500

/-- Embedding of `respectRateLimit` (identical in both services up to the
delay constant): at arrival instant `now` with `lastRequestTime` recorded, if
`now - lastRequestTime < delay` sleep `delay - (now - lastRequestTime)` ms,
then record `Date.now()` as the new `lastRequestTime`.  The returned instant
is that recorded issue time; `slack ≥ 0` models `setTimeout` waking no
earlier than the requested delay. -/
def respectRateLimit (delay lastRequestTime now slack : Int) : Int :=
  if now - lastRequestTime < delay then
    now + (delay - (now - lastRequestTime)) + slack
  else
    now

/-- The ASCII digit character of a decimal digit value. -/
def digitChar (d : Nat) : Char :=
  Char.ofNat (48 + d)

/-- Decimal digit characters of a natural number, most significant first
(built from Mathlib's little-endian `Nat.digits`). -/
def natDecimalDigits (n : Nat) : List Char :=
  ((Nat.digits 10 n).map digitChar).reverse

/-- Embedding of JavaScript number-to-string coercion (template literal
interpolation) on a natural number. -/
def natDecimalStr (n : Nat) : String :=
  if n = 0 then "0" else String.mk (natDecimalDigits n)

/-- A problem row of the Codeforces `problemset.problems` response
(fields used by randomProblem.js).  `contestId` and `rating` may be absent. -/
structure CFProblem where
  contestId : Option Nat
  index : String
  name : String
  rating : Option Int
  deriving Repr, DecidableEq

/-- Lower end of the configured difficulty band (randomProblem.js). -/
def CF_MIN_RATING : Int := 800

/-- Upper end of the configured difficulty band (randomProblem.js). -/
def CF_MAX_RATING : Int := 1500

/-- Catalog cache lifetime: one hour in milliseconds (randomProblem.js). -/
def CF_CACHE_DURATION : Int := 3600000

/-- The filter of `fetchCodeforcesProblems`:
`problem.rating && problem.rating >= CF_MIN_RATING && problem.rating <= CF_MAX_RATING`
(an absent or zero rating is falsy). -/
def ratingInBand (p : CFProblem) : Bool :=
  match p.rating with
  | none => false
  | some r => r != 0 && decide (CF_MIN_RATING ≤ r) && decide (r ≤ CF_MAX_RATING)

/-- The module-level cache of randomProblem.js:
`cfProblemsCache` and `cfCacheTimestamp`. -/
structure CFCache where
  cfProblemsCache : Option (List CFProblem)
  cfCacheTimestamp : Option Int
  deriving Repr, DecidableEq

/-- The network path of `fetchCodeforcesProblems` (cache miss or stale):
on success filter the listing by rating band and cache it stamped `now`; on
failure serve the stale cache when one exists, otherwise propagate the
failure.  The third component records that a network fetch was attempted. -/
def cfAttemptFetch (st : CFCache) (now : Int)
    (response : Except String (List CFProblem)) :
    Except String (List CFProblem) × CFCache × Bool :=
  match response with
  | .ok problems =>
    let filtered := problems.filter ratingInBand
    (.ok filtered, ⟨some filtered, some now⟩, true)
  | .error e =>
    match st.cfProblemsCache with
    | some cache => (.ok cache, st, true)
    | none => (.error e, st, true)

/-- Embedding of randomProblem.js `fetchCodeforcesProblems`: if
`cfProblemsCache && cfCacheTimestamp && Date.now() - cfCacheTimestamp < CF_CACHE_DURATION`
return the cache without touching the network (an array is truthy even when
empty, a timestamp is truthy when non-zero); otherwise go to the network. -/
def fetchCodeforcesProblems (st : CFCache) (now : Int)
    (response : Except String (List CFProblem)) :
    Except String (List CFProblem) × CFCache × Bool :=
  match st.cfProblemsCache, st.cfCacheTimestamp with
  | some cache, some ts =>
    if ts != 0 && decide (now - ts < CF_CACHE_DURATION) then
      (.ok cache, st, false)
    else
      cfAttemptFetch st now response
  | _, _ => cfAttemptFetch st now response

/-- JavaScript interpolation of a possibly-absent number. -/
def numDisplay : Option Nat → String
  | some n => natDecimalStr n
  | none => "undefined"

/-- The problem record returned by `getRandomCodeforcesProblem`. -/
structure PickedProblem where
  id : String
  contestId : Option Nat
  index : String
  name : String
  rating : Option Int
  url : String

/-- Embedding of randomProblem.js `getRandomCodeforcesProblem`: fetch the
(cached) filtered list, fail when it is empty, otherwise pick the entry at
`randomIndex` (the value of `Math.floor(Math.random() * problems.length)`,
which always lies below the length) and build the stored id
`problem.contestId ++ problem.index` and the problem URL. -/
def getRandomCodeforcesProblem (st : CFCache) (now : Int)
    (response : Except String (List CFProblem)) (randomIndex : Nat) :
    Except String PickedProblem × CFCache × Bool :=
  match fetchCodeforcesProblems st now response with
  | (.error e, st2, nf) => (.error e, st2, nf)
  | (.ok problems, st2, nf) =>
    if problems.isEmpty then
      (.error "No Codeforces problems available", st2, nf)
    else
      let problem := problems.getD randomIndex ⟨none, "", "", none⟩
      (.ok
        { id := numDisplay problem.contestId ++ problem.index
          contestId := problem.contestId
          index := problem.index
          name := problem.name
          rating := problem.rating
          url := "https://codeforces.com/problemset/problem/" ++
            numDisplay problem.contestId ++ "/" ++ problem.index },
        st2, nf)

/-- A pending verification session row as stored by link.js and read by
verify.js (`pending_verifications`). -/
structure PendingVerification where
  id : Nat
  discord_user_id : String
  guild_id : String
  platform : String
  username : String
  problem_id : String
  problem_url : String
  problem_name : String
  started_at : Int
  expires_at : Int
  deriving Repr, DecidableEq

/-- A linked-account row as written by verify.js (`linked_accounts`). -/
structure LinkedAccount where
  discord_user_id : String
  guild_id : String
  platform : String
  username : String
  rank : Option String
  deriving Repr, DecidableEq

/-- Modelled from the spec: roleManager.js (`assignVerificationRoles`) is not
under src/.  Per §6 the role-assignment callback returns
`(verifiedRoleAssigned, rankRoleAssigned)` flags and "its failure is logged,
not propagated as a verification failure", so it is modelled as a total value
(never a thrown error); a failed assignment is the flags being `false`. -/
structure RoleAssignResult where
  verifiedRole : Bool
  rankRole : Bool
  deriving Repr, DecidableEq

/-- The matcher-result fields verify.js consults (`verified`, `message`). -/
structure CheckResult where
  verified : Bool
  message : String
  deriving Repr, DecidableEq

/-- Projection of a Codeforces matcher result to the fields verify.js uses. -/
def CFCheckResult.toCheck (r : CFCheckResult) : CheckResult :=
  ⟨r.verified, r.message⟩

/-- Projection of a CodeChef matcher result to the fields verify.js uses. -/
def CCCheckResult.toCheck (r : CCCheckResult) : CheckResult :=
  ⟨r.verified, r.message⟩

/-- The per-platform result record verify.js pushes into `results`. -/
structure VResult where
  platform : String
  username : String
  success : Bool
  message : String
  rank : Option String := none
  rolesAssigned : Option RoleAssignResult := none
  problemUrl : Option String := none
  problemName : Option String := none
  timeRemaining : Option String := none
  deriving Repr, DecidableEq

/-- Outcome of processing one pending verification: the pushed result plus
the store effects that occurred (session deletion, linked-account row). -/
structure StepOutcome where
  result : VResult
  sessionDeleted : Bool
  linkedCreated : Option LinkedAccount
  deriving Repr, DecidableEq

/-- The verification-computation block of verify.js (the inner `try` around
the platform dispatch): parse the problem id and run the platform matcher.
`cfFetch` is the outcome of the Codeforces `getRecentSubmissions` call,
`ccFetch` that of the CodeChef scrape (`.error` models a thrown error, which
the CodeChef service wraps with its own prefix before verify.js catches it).
An unknown platform leaves `verificationResult` undefined (`none`). -/
def computeVerification (pending : PendingVerification)
    (cfFetch : Except String (List CFSubmission))
    (ccFetch : Except String (Bool × List CCSubmission)) :
    Except String (Option CheckResult) :=
  if pending.platform == "codeforces" then
    match parseCodeforcesProblemId pending.problem_id with
    | none => .error ("Invalid problem ID format: " ++ pending.problem_id)
    | some (contestId, index) =>
      match cfFetch with
      | .error e => .error e
      | .ok subs =>
        .ok (some (checkCompilationErrorSubmissionCF subs contestId index
          pending.started_at).toCheck)
  else if pending.platform == "codechef" then
    match ccFetch with
    | .error e => .error ("Failed to check CodeChef submissions: " ++ e)
    | .ok (scrapeFoundCE, subs) =>
      .ok (some (checkCompilationErrorSubmissionCC pending.username pending.problem_id
        pending.started_at scrapeFoundCE subs).toCheck)
  else
    .ok none

/-- The expired-session message of verify.js. -/
def expiredMessage : String :=
  "Verification expired. Please start a new verification with `/link`."

/-- The fallback message when the matcher produced no message. -/
def noValidCEMessage : String :=
  "No valid Compilation Error submission found."

/-- Embedding of the per-pending loop body of verify.js `execute`
(lines 71–187) for one pending verification at instant `now` (ms).
External effects are passed as explicit outcomes: `cfFetch`/`ccFetch` the
judge calls, `rankFetch` the `getUserRank` call (its failure is swallowed),
`persistLinked` the `createLinkedAccount` call, `persistDelete` the
`deletePendingVerification` call, and `roleResult` the role-assignment
callback (total, see `RoleAssignResult`).  The expired branch and the two
non-success branches perform no store writes beyond what the outcome
records. -/
def processPending (now : Int) (userId guildId : String) (pending : PendingVerification)
    (cfFetch : Except String (List CFSubmission))
    (ccFetch : Except String (Bool × List CCSubmission))
    (rankFetch : Except String String)
    (persistLinked : Except String Unit)
    (persistDelete : Except String Unit)
    (roleResult : RoleAssignResult) : StepOutcome :=
  if isExpired pending.expires_at now then
    { result := { platform := pending.platform, username := pending.username,
                  success := false, message := expiredMessage }
      sessionDeleted := true
      linkedCreated := none }
  else
    match computeVerification pending cfFetch ccFetch with
    | .error e =>
      { result := { platform := pending.platform, username := pending.username,
                    success := false, message := "Failed to check submissions: " ++ e }
        sessionDeleted := false
        linkedCreated := none }
    | .ok ovr =>
      if (match ovr with | some vr => vr.verified | none => false) then
        let userRank : Option String :=
          if pending.platform == "codeforces" then rankFetch.toOption else none
        let acct : LinkedAccount :=
          { discord_user_id := userId, guild_id := guildId,
            platform := pending.platform, username := pending.username, rank := userRank }
        match persistLinked with
        | .error e =>
          { result := { platform := pending.platform, username := pending.username,
                        success := false,
                        message := "Verification successful but failed to save: " ++ e }
            sessionDeleted := false
            linkedCreated := none }
        | .ok _ =>
          match persistDelete with
          | .error e =>
            { result := { platform := pending.platform, username := pending.username,
                          success := false,
                          message := "Verification successful but failed to save: " ++ e }
              sessionDeleted := false
              linkedCreated := some acct }
          | .ok _ =>
            { result := { platform := pending.platform, username := pending.username,
                          success := true, message := "Account verified successfully!",
                          rank := userRank, rolesAssigned := some roleResult }
              sessionDeleted := true
              linkedCreated := some acct }
      else
        { result := { platform := pending.platform, username := pending.username,
                      success := false,
                      message := match ovr with
                        | some vr => if vr.message == "" then noValidCEMessage else vr.message
                        | none => noValidCEMessage,
                      problemUrl := some pending.problem_url,
                      problemName := some pending.problem_name,
                      timeRemaining := some (getRemainingTime pending.expires_at now).formatted }
          sessionDeleted := false
          linkedCreated := none }

/-- Modelled from the spec: supabase.client.js is not under src/.  Sessions
are keyed by (userId, guildId, platform) (§6 "CRUD on VerificationSession
keyed by (userId, guildId, platform)"). -/
def sameSessionKey (a b : PendingVerification) : Bool :=
  a.discord_user_id == b.discord_user_id && a.guild_id == b.guild_id &&
    a.platform == b.platform

/-- Modelled from the spec: `createPendingVerification` of supabase.client.js
is not under src/.  Per §3 ("a new /link for the same platform supersedes
... the prior one") and §4.3 ("persists the session, superseding any prior
session for the same key"), persisting a session replaces every stored
session with the same (userId, guildId, platform) key. -/
def createPendingVerification (store : List PendingVerification)
    (s : PendingVerification) : List PendingVerification :=
  s :: store.filter (fun t => !sameSessionKey t s)

/-! ## Helper lemmas -/

theorem cfQualifies_iff (sub : CFSubmission) (contestId : Nat) (problemIndex : String)
    (startedAt : Int) :
    cfQualifies sub contestId problemIndex startedAt = true ↔
      cfProblemMatch sub contestId problemIndex = true ∧
        sub.verdict = some "COMPILATION_ERROR" ∧
        isSubmissionAfterStart sub.creationTimeSeconds startedAt = true := by
  simp [cfQualifies, Bool.and_eq_true, and_assoc]

theorem cfProblemAfterStart_iff (sub : CFSubmission) (contestId : Nat)
    (problemIndex : String) (startedAt : Int) :
    cfProblemAfterStart sub contestId problemIndex startedAt = true ↔
      cfProblemMatch sub contestId problemIndex = true ∧
        isSubmissionAfterStart sub.creationTimeSeconds startedAt = true := by
  simp [cfProblemAfterStart, Bool.and_eq_true]

theorem cfQualifies_imp (sub : CFSubmission) (contestId : Nat) (problemIndex : String)
    (startedAt : Int) (h : cfQualifies sub contestId problemIndex startedAt = true) :
    cfProblemAfterStart sub contestId problemIndex startedAt = true := by
  rw [cfQualifies_iff] at h
  rw [cfProblemAfterStart_iff]
  exact ⟨h.1, h.2.2⟩

/-! ## C2 — Codeforces matcher outcome precedence -/

/-- C2.  The Codeforces `checkCompilationErrorSubmission` returns a verified
result exactly when some fetched submission matches the contest id, the
problem index case-insensitively, has verdict exactly `"COMPILATION_ERROR"`,
and was submitted at or after `startedAt`; otherwise, when some submission
matches the problem reference at or after `startedAt` with a different
verdict, it returns an unverified result whose message reports that verdict;
otherwise it returns the "No submission found" result. -/
theorem cfMatcherPrecedence (subs : List CFSubmission) (contestId : Nat)
    (problemIndex : String) (startedAt : Int) :
    ((checkCompilationErrorSubmissionCF subs contestId problemIndex startedAt).verified = true ↔
      ∃ sub ∈ subs, cfQualifies sub contestId problemIndex startedAt = true) ∧
    ((∀ sub ∈ subs, ¬ cfQualifies sub contestId problemIndex startedAt = true) →
      (∃ sub ∈ subs, cfProblemAfterStart sub contestId problemIndex startedAt = true) →
      (checkCompilationErrorSubmissionCF subs contestId problemIndex startedAt).verified = false ∧
        ∃ sub ∈ subs, cfProblemAfterStart sub contestId problemIndex startedAt = true ∧
          sub.verdict ≠ some "COMPILATION_ERROR" ∧
          (checkCompilationErrorSubmissionCF subs contestId problemIndex startedAt).message =
            cfMismatchMessage (verdictDisplay sub.verdict)) ∧
    ((∀ sub ∈ subs, ¬ cfProblemAfterStart sub contestId problemIndex startedAt = true) →
      checkCompilationErrorSubmissionCF subs contestId problemIndex startedAt =
        ⟨false, none, "No submission found to the specified problem"⟩) := by
  refine ⟨?_, ?_, ?_⟩
  · cases h1 : subs.find? (fun sub => cfQualifies sub contestId problemIndex startedAt) with
    | some s =>
      have hq := List.find?_some h1
      have hmem := List.mem_of_find?_eq_some h1
      simp only [checkCompilationErrorSubmissionCF, h1]
      constructor
      · intro _
        exact ⟨s, hmem, hq⟩
      · intro _
        trivial
    | none =>
      have hno := List.find?_eq_none.mp h1
      cases h2 : subs.find?
          (fun sub => cfProblemAfterStart sub contestId problemIndex startedAt) with
      | some s =>
        simp only [checkCompilationErrorSubmissionCF, h1, h2]
        constructor
        · intro hfalse; cases hfalse
        · rintro ⟨sub, hmem, hq⟩; exact absurd hq (hno sub hmem)
      | none =>
        simp only [checkCompilationErrorSubmissionCF, h1, h2]
        constructor
        · intro hfalse; cases hfalse
        · rintro ⟨sub, hmem, hq⟩; exact absurd hq (hno sub hmem)
  · intro hnoq hex
    have h1 : subs.find? (fun sub => cfQualifies sub contestId problemIndex startedAt) = none :=
      List.find?_eq_none.mpr hnoq
    cases h2 : subs.find?
        (fun sub => cfProblemAfterStart sub contestId problemIndex startedAt) with
    | some s =>
      have hs := List.find?_some h2
      have hmem := List.mem_of_find?_eq_some h2
      have hverdict : s.verdict ≠ some "COMPILATION_ERROR" := by
        intro hv
        apply hnoq s hmem
        rw [cfProblemAfterStart_iff] at hs
        rw [cfQualifies_iff]
        exact ⟨hs.1, hv, hs.2⟩
      simp only [checkCompilationErrorSubmissionCF, h1, h2]
      refine ⟨?_, s, hmem, hs, hverdict, ?_⟩ <;> trivial
    | none =>
      obtain ⟨sub, hmem, hps⟩ := hex
      exact absurd hps (List.find?_eq_none.mp h2 sub hmem)
  · intro hnops
    have h2 : subs.find?
        (fun sub => cfProblemAfterStart sub contestId problemIndex startedAt) = none :=
      List.find?_eq_none.mpr hnops
    have h1 : subs.find? (fun sub => cfQualifies sub contestId problemIndex startedAt) = none :=
      List.find?_eq_none.mpr fun sub hmem hq =>
        hnops sub hmem (cfQualifies_imp sub contestId problemIndex startedAt hq)
    simp only [checkCompilationErrorSubmissionCF, h1, h2]

/-- Witness for C2, instantiating the spec's scenarios: a lower-case index
`"a"` with a post-start `COMPILATION_ERROR` verifies against challenge
`1000A`; a post-start `WRONG_ANSWER` to the same problem yields the mismatch
branch reporting that verdict. -/
theorem cfMatcherPrecedence_witness :
    (checkCompilationErrorSubmissionCF
      [⟨some 1000, "a", some "COMPILATION_ERROR", 1005⟩] 1000 "A" 1000000).verified = true ∧
    ((checkCompilationErrorSubmissionCF
        [⟨some 1000, "A", some "WRONG_ANSWER", 1005⟩] 1000 "A" 1000000).verified = false ∧
      ∃ sub ∈ [(⟨some 1000, "A", some "WRONG_ANSWER", 1005⟩ : CFSubmission)],
        cfProblemAfterStart sub 1000 "A" 1000000 = true ∧
          sub.verdict ≠ some "COMPILATION_ERROR" ∧
          (checkCompilationErrorSubmissionCF
            [⟨some 1000, "A", some "WRONG_ANSWER", 1005⟩] 1000 "A" 1000000).message =
            cfMismatchMessage (verdictDisplay sub.verdict)) := by
  constructor
  · exact (cfMatcherPrecedence
      [⟨some 1000, "a", some "COMPILATION_ERROR", 1005⟩] 1000 "A" 1000000).1.mpr
      ⟨⟨some 1000, "a", some "COMPILATION_ERROR", 1005⟩, by decide, by decide⟩
  · exact (cfMatcherPrecedence
      [⟨some 1000, "A", some "WRONG_ANSWER", 1005⟩] 1000 "A" 1000000).2.1
      (by decide) ⟨⟨some 1000, "A", some "WRONG_ANSWER", 1005⟩, by decide, by decide⟩

/-! ## C1 — replay protection -/

/-- C1.  The CodeChef `checkCompilationErrorSubmission` returns a verified
result for a Compilation Error submission whose timestamp lies strictly
before the session's start: with the direct scrape finding nothing, a
fallback submission to the challenged problem with verdict
"compilation error" dated second 5 verifies against a session started at
millisecond 1000000000 (second 1000000), because the function never consults
`startedAt` (replay protection holds on the Codeforces backend — see the
verified-iff clause of the C2 theorem, whose qualifying predicate requires
`isSubmissionAfterStart` — but not on the CodeChef backend). -/
theorem ccMatcherVerifiesPreStartSubmission :
    (checkCompilationErrorSubmissionCC "chefuser" "TEST" 1000000000 false
      [⟨some "TEST", some "compilation error", some 5⟩]).verified = true ∧
    isSubmissionAfterStart 5 1000000000 = false ∧
    (checkCompilationErrorSubmissionCC "chefuser" "TEST" 1000000000 false
      [⟨some "TEST", some "compilation error", some 5⟩]).submission =
      some ⟨some "TEST", some "compilation error", some 5⟩ := by
  refine ⟨by decide, by decide, by decide⟩

/-! ## C3 — expired sessions are deleted without consulting the judge -/

/-- C3.  When a pending session is already expired at the time of the
verify call, the step deletes the session and reports the expired outcome;
the outcome is one fixed value, independent of every judge, rank,
persistence and role input (the judge is never consulted). -/
theorem verifyExpiredDeletesSession (now : Int) (userId guildId : String)
    (pending : PendingVerification)
    (cfFetch : Except String (List CFSubmission))
    (ccFetch : Except String (Bool × List CCSubmission))
    (rankFetch : Except String String)
    (persistLinked persistDelete : Except String Unit)
    (roleResult : RoleAssignResult)
    (h : isExpired pending.expires_at now = true) :
    processPending now userId guildId pending cfFetch ccFetch rankFetch
      persistLinked persistDelete roleResult =
      { result := { platform := pending.platform, username := pending.username,
                    success := false, message := expiredMessage }
        sessionDeleted := true
        linkedCreated := none } := by
  simp [processPending, h]

/-- Witness for C3 at a concrete expired session: any judge inputs give the
same expired outcome. -/
theorem verifyExpiredDeletesSession_witness :
    isExpired 100 200 = true ∧
    processPending 200 "u" "g"
      ⟨1, "u", "g", "codeforces", "alice", "1000A", "url", "name", 0, 100⟩
      (.ok [⟨some 1000, "A", some "COMPILATION_ERROR", 5⟩]) (.ok (true, []))
      (.ok "newbie") (.ok ()) (.ok ()) ⟨true, true⟩ =
      { result := { platform := "codeforces", username := "alice",
                    success := false, message := expiredMessage }
        sessionDeleted := true
        linkedCreated := none } :=
  ⟨by decide,
    verifyExpiredDeletesSession 200 "u" "g"
      ⟨1, "u", "g", "codeforces", "alice", "1000A", "url", "name", 0, 100⟩
      (.ok [⟨some 1000, "A", some "COMPILATION_ERROR", 5⟩]) (.ok (true, []))
      (.ok "newbie") (.ok ()) (.ok ()) ⟨true, true⟩ (by decide)⟩

/-! ## C4 — role-assignment failure does not roll back the link -/

/-- C4.  When a qualifying Codeforces match is found and both persistence
calls succeed, the step's outcome for an arbitrary role-assignment result —
including the total failure `⟨false, false⟩` — is the success outcome: the
linked account stays persisted, the session is deleted, the result reports
success, and the role flags are merely carried in the result. -/
theorem verifyRoleFailureKeepsSuccess (now : Int) (userId guildId : String)
    (pending : PendingVerification) (subs : List CFSubmission)
    (contestId : Nat) (index : String)
    (ccFetch : Except String (Bool × List CCSubmission))
    (rankFetch : Except String String) (roleResult : RoleAssignResult)
    (hexp : isExpired pending.expires_at now = false)
    (hplat : pending.platform = "codeforces")
    (hparse : parseCodeforcesProblemId pending.problem_id = some (contestId, index))
    (hver : (checkCompilationErrorSubmissionCF subs contestId index
      pending.started_at).verified = true) :
    processPending now userId guildId pending (.ok subs) ccFetch rankFetch
      (.ok ()) (.ok ()) roleResult =
      { result := { platform := pending.platform, username := pending.username,
                    success := true, message := "Account verified successfully!",
                    rank := rankFetch.toOption, rolesAssigned := some roleResult }
        sessionDeleted := true
        linkedCreated := some ⟨userId, guildId, pending.platform, pending.username,
          rankFetch.toOption⟩ } := by
  simp [processPending, computeVerification, hexp, hplat, hparse, hver,
    CFCheckResult.toCheck]

/-- Witness for C4: concrete verified session; the role callback fails on
both flags, yet the outcome is success with the account persisted. -/
theorem verifyRoleFailureKeepsSuccess_witness :
    processPending 50 "u" "g"
      ⟨1, "u", "g", "codeforces", "alice", "1000A", "url", "name", 0, 100⟩
      (.ok [⟨some 1000, "A", some "COMPILATION_ERROR", 5⟩]) (.ok (false, []))
      (.ok "newbie") (.ok ()) (.ok ()) ⟨false, false⟩ =
      { result := { platform := "codeforces", username := "alice",
                    success := true, message := "Account verified successfully!",
                    rank := some "newbie", rolesAssigned := some ⟨false, false⟩ }
        sessionDeleted := true
        linkedCreated := some ⟨"u", "g", "codeforces", "alice", some "newbie"⟩ } :=
  verifyRoleFailureKeepsSuccess 50 "u" "g"
    ⟨1, "u", "g", "codeforces", "alice", "1000A", "url", "name", 0, 100⟩
    [⟨some 1000, "A", some "COMPILATION_ERROR", 5⟩] 1000 "A"
    (.ok (false, [])) (.ok "newbie") ⟨false, false⟩
    (by decide) rfl (by decide) (by decide)

/-! ## C5 — persistence failure after a match is surfaced distinctly -/

/-- C5.  When a qualifying Codeforces match is found but persisting the
linked account fails, the step reports an unsuccessful outcome whose message
is the distinct "Verification successful but failed to save" message, no
account row is recorded, and the session is left in place so the user can
retry the verify step. -/
theorem verifySaveFailureSurfacedDistinctly (now : Int) (userId guildId : String)
    (pending : PendingVerification) (subs : List CFSubmission)
    (contestId : Nat) (index : String)
    (ccFetch : Except String (Bool × List CCSubmission))
    (rankFetch : Except String String) (roleResult : RoleAssignResult) (e : String)
    (hexp : isExpired pending.expires_at now = false)
    (hplat : pending.platform = "codeforces")
    (hparse : parseCodeforcesProblemId pending.problem_id = some (contestId, index))
    (hver : (checkCompilationErrorSubmissionCF subs contestId index
      pending.started_at).verified = true) :
    processPending now userId guildId pending (.ok subs) ccFetch rankFetch
      (.error e) (.ok ()) roleResult =
      { result := { platform := pending.platform, username := pending.username,
                    success := false,
                    message := "Verification successful but failed to save: " ++ e }
        sessionDeleted := false
        linkedCreated := none } := by
  simp [processPending, computeVerification, hexp, hplat, hparse, hver,
    CFCheckResult.toCheck]

/-- Witness for C5 at a concrete verified session whose save call fails. -/
theorem verifySaveFailureSurfacedDistinctly_witness :
    processPending 50 "u" "g"
      ⟨1, "u", "g", "codeforces", "alice", "1000A", "url", "name", 0, 100⟩
      (.ok [⟨some 1000, "A", some "COMPILATION_ERROR", 5⟩]) (.ok (false, []))
      (.ok "newbie") (.error "db down") (.ok ()) ⟨true, true⟩ =
      { result := { platform := "codeforces", username := "alice",
                    success := false,
                    message := "Verification successful but failed to save: " ++ "db down" }
        sessionDeleted := false
        linkedCreated := none } :=
  verifySaveFailureSurfacedDistinctly 50 "u" "g"
    ⟨1, "u", "g", "codeforces", "alice", "1000A", "url", "name", 0, 100⟩
    [⟨some 1000, "A", some "COMPILATION_ERROR", 5⟩] 1000 "A"
    (.ok (false, [])) (.ok "newbie") ⟨true, true⟩ "db down"
    (by decide) rfl (by decide) (by decide)

/-! ## C6 — not-yet / mismatch leaves the session untouched -/

/-- Total remaining seconds encoded by a `getRemainingTime` record. -/
def remainingTotalSeconds (expiresAt now : Int) : Nat :=
  (getRemainingTime expiresAt now).minutes * 60 + (getRemainingTime expiresAt now).seconds

theorem remainingTotalSeconds_eq (e n : Int) :
    remainingTotalSeconds e n = (e - n).toNat / 1000 := by
  unfold remainingTotalSeconds getRemainingTime
  by_cases h : e - n ≤ 0
  · have h0 : (e - n).toNat = 0 := Int.toNat_of_nonpos h
    simp [h, h0]
  · simp only [h, if_false]
    omega

theorem remainingTotalSeconds_antitone (e n1 n2 : Int) (h : n1 ≤ n2) :
    remainingTotalSeconds e n2 ≤ remainingTotalSeconds e n1 := by
  rw [remainingTotalSeconds_eq, remainingTotalSeconds_eq]
  exact Nat.div_le_div_right (Int.toNat_le_toNat (by omega))

theorem string_append_ne_empty (a b c : String) (ha : a.data ≠ []) :
    a ++ b ++ c ≠ "" := by
  intro h
  have hempty : ("" : String).data = ([] : List Char) := rfl
  have hd : a.data ++ b.data ++ c.data = [] := by
    have h2 := congrArg String.data h
    rw [String.data_append, String.data_append, hempty] at h2
    exact h2
  rw [List.append_eq_nil, List.append_eq_nil] at hd
  exact ha hd.1.1

theorem cfCheck_message_ne_empty (subs : List CFSubmission) (contestId : Nat)
    (problemIndex : String) (startedAt : Int) :
    (checkCompilationErrorSubmissionCF subs contestId problemIndex startedAt).message ≠ "" := by
  unfold checkCompilationErrorSubmissionCF
  cases subs.find? (fun sub => cfQualifies sub contestId problemIndex startedAt) with
  | some s => simp
  | none =>
    cases subs.find?
        (fun sub => cfProblemAfterStart sub contestId problemIndex startedAt) with
    | some s =>
      simpa [cfMismatchMessage, String.append_assoc] using
        string_append_ne_empty "Found submission but verdict was \""
          (verdictDisplay s.verdict) "\" instead of \"COMPILATION_ERROR\"" (by decide)
    | none => simp

theorem ccCheck_message_ne_empty (username problemCode : String) (startedAt : Int)
    (scrapeFoundCE : Bool) (subs : List CCSubmission) :
    (checkCompilationErrorSubmissionCC username problemCode startedAt scrapeFoundCE
      subs).message ≠ "" := by
  unfold checkCompilationErrorSubmissionCC
  by_cases hs : scrapeFoundCE
  · simp [hs]
  · simp only [hs, if_false]
    cases subs.find? (fun sub => ccProblemMatch sub problemCode && ccResultIsCE sub) with
    | some s => simp
    | none =>
      cases subs.find? (fun sub => ccProblemMatch sub problemCode) with
      | some s =>
        simpa [String.append_assoc] using
          string_append_ne_empty "Found submission but verdict was \""
            (verdictDisplay s.result) "\" instead of \"Compilation Error\"" (by decide)
      | none => simp

/-- Any matcher result surfaced by the verification-computation block has a
non-empty message, so verify.js's `|| "No valid ..."` fallback never fires
for it. -/
theorem computeVerification_message_ne_empty (pending : PendingVerification)
    (cfFetch : Except String (List CFSubmission))
    (ccFetch : Except String (Bool × List CCSubmission)) (vr : CheckResult)
    (h : computeVerification pending cfFetch ccFetch = .ok (some vr)) :
    vr.message ≠ "" := by
  unfold computeVerification at h
  by_cases hcf : pending.platform == "codeforces"
  · rw [if_pos hcf] at h
    cases hp : parseCodeforcesProblemId pending.problem_id with
    | none => rw [hp] at h; cases h
    | some pr =>
      rw [hp] at h
      cases cfFetch with
      | error e => cases h
      | ok subs =>
        simp only [Except.ok.injEq, Option.some.injEq] at h
        subst h
        exact cfCheck_message_ne_empty subs pr.1 pr.2 pending.started_at
  · rw [if_neg hcf] at h
    by_cases hcc : pending.platform == "codechef"
    · rw [if_pos hcc] at h
      cases ccFetch with
      | error e => cases h
      | ok p =>
        simp only [Except.ok.injEq, Option.some.injEq] at h
        subst h
        exact ccCheck_message_ne_empty pending.username pending.problem_id
          pending.started_at p.1 p.2
    · rw [if_neg hcc] at h
      cases h

/-- C6.  A verify step on an unexpired session whose matcher outcome is
not-yet or mismatch (any platform) performs no store effect — the session is
not deleted and no account row is written — and its result carries the
matcher's reason message together with the formatted remaining time; and the
remaining time is non-increasing in the call instant, so repeated calls with
no new qualifying submission report non-increasing remaining time. -/
theorem verifyNotYetLeavesSessionUntouched (now : Int) (userId guildId : String)
    (pending : PendingVerification)
    (cfFetch : Except String (List CFSubmission))
    (ccFetch : Except String (Bool × List CCSubmission))
    (rankFetch : Except String String)
    (persistLinked persistDelete : Except String Unit)
    (roleResult : RoleAssignResult) (vr : CheckResult)
    (hexp : isExpired pending.expires_at now = false)
    (hcomp : computeVerification pending cfFetch ccFetch = .ok (some vr))
    (hnver : vr.verified = false) :
    (processPending now userId guildId pending cfFetch ccFetch rankFetch
        persistLinked persistDelete roleResult =
      { result := { platform := pending.platform, username := pending.username,
                    success := false, message := vr.message,
                    problemUrl := some pending.problem_url,
                    problemName := some pending.problem_name,
                    timeRemaining := some (getRemainingTime pending.expires_at
                      now).formatted }
        sessionDeleted := false
        linkedCreated := none }) ∧
    (∀ n1 n2 : Int, n1 ≤ n2 →
      remainingTotalSeconds pending.expires_at n2 ≤
        remainingTotalSeconds pending.expires_at n1) := by
  constructor
  · have hmsg : vr.message ≠ "" :=
      computeVerification_message_ne_empty pending cfFetch ccFetch vr hcomp
    have hmsgb : (vr.message == "") = false := by
      simp [hmsg]
    simp [processPending, hexp, hcomp, hnver, hmsgb]
  · intro n1 n2 h12
    exact remainingTotalSeconds_antitone pending.expires_at n1 n2 h12

/-- Witness for C6: a concrete unexpired Codeforces session with no
submissions fetched yields the untouched-session outcome carrying the
"No submission found" reason and the remaining time. -/
theorem verifyNotYetLeavesSessionUntouched_witness :
    processPending 100000 "u" "g"
      ⟨1, "u", "g", "codeforces", "alice", "1000A", "url", "name", 0, 700000⟩
      (.ok []) (.ok (false, [])) (.ok "newbie") (.ok ()) (.ok ()) ⟨true, true⟩ =
      { result := { platform := "codeforces", username := "alice",
                    success := false,
                    message := "No submission found to the specified problem",
                    problemUrl := some "url", problemName := some "name",
                    timeRemaining := some (getRemainingTime 700000 100000).formatted }
        sessionDeleted := false
        linkedCreated := none } :=
  (verifyNotYetLeavesSessionUntouched 100000 "u" "g"
    ⟨1, "u", "g", "codeforces", "alice", "1000A", "url", "name", 0, 700000⟩
    (.ok []) (.ok (false, [])) (.ok "newbie") (.ok ()) (.ok ()) ⟨true, true⟩
    ⟨false, "No submission found to the specified problem"⟩
    (by decide) rfl rfl).1

/-! ## C7 — one pending session per (user, guild, platform) -/

theorem sameSessionKey_refl (s : PendingVerification) : sameSessionKey s s = true := by
  simp [sameSessionKey]

theorem createPending_filter_key (store : List PendingVerification)
    (s : PendingVerification) :
    (createPendingVerification store s).filter (fun t => sameSessionKey t s) = [s] := by
  unfold createPendingVerification
  rw [List.filter_cons]
  simp only [sameSessionKey_refl, if_true]
  have hnil : (store.filter (fun t => !sameSessionKey t s)).filter
      (fun t => sameSessionKey t s) = [] := by
    rw [List.filter_eq_nil_iff]
    intro t ht hkey
    have hmem := List.mem_filter.mp ht
    rw [hkey] at hmem
    simp at hmem
  rw [hnil]

/-- C7.  Creating a session for the same (userId, guildId, platform) key as
an earlier one supersedes it: after the two creations exactly the second
session is stored under that key, and the first (when distinct from the
second) is no longer in the store at all. -/
theorem createPendingSupersedes (store : List PendingVerification)
    (s1 s2 : PendingVerification) (h : sameSessionKey s1 s2 = true) :
    ((createPendingVerification (createPendingVerification store s1) s2).filter
        (fun t => sameSessionKey t s2) = [s2]) ∧
    (s1 ≠ s2 → s1 ∉ createPendingVerification (createPendingVerification store s1) s2) := by
  constructor
  · exact createPending_filter_key (createPendingVerification store s1) s2
  · intro hne hmem
    rcases List.mem_cons.mp hmem with heq | htail
    · exact hne heq
    · have hf := (List.mem_filter.mp htail).2
      rw [h] at hf
      simp at hf

/-- Witness for C7: two concrete sessions with the same key (different
problems); only the second survives under the key and the first is gone. -/
theorem createPendingSupersedes_witness :
    (((createPendingVerification (createPendingVerification []
          ⟨1, "u", "g", "codeforces", "alice", "1000A", "url1", "p1", 0, 100⟩)
          ⟨2, "u", "g", "codeforces", "alice", "2000B", "url2", "p2", 50, 150⟩).filter
        (fun t => sameSessionKey t
          ⟨2, "u", "g", "codeforces", "alice", "2000B", "url2", "p2", 50, 150⟩)) =
      [⟨2, "u", "g", "codeforces", "alice", "2000B", "url2", "p2", 50, 150⟩]) ∧
    (⟨1, "u", "g", "codeforces", "alice", "1000A", "url1", "p1", 0, 100⟩ : PendingVerification) ∉
      createPendingVerification (createPendingVerification []
        ⟨1, "u", "g", "codeforces", "alice", "1000A", "url1", "p1", 0, 100⟩)
        ⟨2, "u", "g", "codeforces", "alice", "2000B", "url2", "p2", 50, 150⟩ :=
  ⟨(createPendingSupersedes []
      ⟨1, "u", "g", "codeforces", "alice", "1000A", "url1", "p1", 0, 100⟩
      ⟨2, "u", "g", "codeforces", "alice", "2000B", "url2", "p2", 50, 150⟩ (by decide)).1,
    (createPendingSupersedes []
      ⟨1, "u", "g", "codeforces", "alice", "1000A", "url1", "p1", 0, 100⟩
      ⟨2, "u", "g", "codeforces", "alice", "2000B", "url2", "p2", 50, 150⟩ (by decide)).2
      (by decide)⟩

/-! ## C8 — problem catalog: band filter, one-hour cache, stale fallback,
selection by uniform index -/

/-- The rating band as a proposition on a problem. -/
def ratingWithinBand (p : CFProblem) : Prop :=
  ∃ r, p.rating = some r ∧ CF_MIN_RATING ≤ r ∧ r ≤ CF_MAX_RATING

/-- The cache only ever holds problems within the band. -/
def CacheInBand (st : CFCache) : Prop :=
  ∀ l, st.cfProblemsCache = some l → ∀ p ∈ l, ratingInBand p = true

theorem ratingInBand_iff (p : CFProblem) :
    ratingInBand p = true ↔ ratingWithinBand p := by
  unfold ratingInBand ratingWithinBand
  cases p.rating with
  | none => simp
  | some r =>
    simp only [Option.some.injEq, Bool.and_eq_true, bne_iff_ne, ne_eq,
      decide_eq_true_eq, CF_MIN_RATING, CF_MAX_RATING]
    constructor
    · rintro ⟨⟨h0, h1⟩, h2⟩
      exact ⟨r, rfl, h1, h2⟩
    · rintro ⟨r', hr', h1, h2⟩
      cases hr'
      exact ⟨⟨by omega, h1⟩, h2⟩

theorem fetch_ok_inBand (st : CFCache) (now : Int)
    (resp : Except String (List CFProblem)) (l : List CFProblem) (st2 : CFCache)
    (nf : Bool) (hwf : CacheInBand st)
    (h : fetchCodeforcesProblems st now resp = (.ok l, st2, nf)) :
    (∀ p ∈ l, ratingInBand p = true) ∧ CacheInBand st2 := by
  obtain ⟨oc, ots⟩ := st
  have hattempt : ∀ (hc : Option (List CFProblem)) (hts : Option Int),
      CacheInBand ⟨hc, hts⟩ →
      cfAttemptFetch ⟨hc, hts⟩ now resp = (.ok l, st2, nf) →
      (∀ p ∈ l, ratingInBand p = true) ∧ CacheInBand st2 := by
    intro hc hts hwf' hh
    unfold cfAttemptFetch at hh
    cases resp with
    | ok problems =>
      simp only [Prod.mk.injEq, Except.ok.injEq] at hh
      obtain ⟨rfl, rfl, _⟩ := hh
      refine ⟨fun p hp => (List.mem_filter.mp hp).2, ?_⟩
      intro l' hl' p hp
      simp only [Option.some.injEq] at hl'
      cases hl'
      exact (List.mem_filter.mp hp).2
    | error e =>
      cases hc with
      | some cache =>
        simp only [Prod.mk.injEq, Except.ok.injEq] at hh
        obtain ⟨rfl, rfl, _⟩ := hh
        exact ⟨hwf' cache rfl, hwf'⟩
      | none => cases hh
  cases oc with
  | some cache =>
    cases ots with
    | some ts =>
      unfold fetchCodeforcesProblems at h
      dsimp only at h
      by_cases hfresh : (ts != 0 && decide (now - ts < CF_CACHE_DURATION)) = true
      · rw [if_pos hfresh] at h
        simp only [Prod.mk.injEq, Except.ok.injEq] at h
        obtain ⟨rfl, rfl, _⟩ := h
        exact ⟨hwf cache rfl, hwf⟩
      · rw [if_neg hfresh] at h
        exact hattempt (some cache) (some ts) hwf h
    | none =>
      unfold fetchCodeforcesProblems at h
      dsimp only at h
      exact hattempt (some cache) none hwf h
  | none =>
    cases ots with
    | some ts =>
      unfold fetchCodeforcesProblems at h
      dsimp only at h
      exact hattempt none (some ts) hwf h
    | none =>
      unfold fetchCodeforcesProblems at h
      dsimp only at h
      exact hattempt none none hwf h

/-- The record built by `getRandomCodeforcesProblem` from a catalog entry. -/
def pickedFromProblem (p : CFProblem) : PickedProblem :=
  { id := numDisplay p.contestId ++ p.index
    contestId := p.contestId
    index := p.index
    name := p.name
    rating := p.rating
    url := "https://codeforces.com/problemset/problem/" ++
      numDisplay p.contestId ++ "/" ++ p.index }

/-- C8.  Catalog behaviour: (a) while the cache is fresh (timestamp within
one hour of `now`) the cached list is served with no network fetch and no
state change; (b) a successful fetch stores and returns exactly the list
filtered to the configured rating band, stamped `now`; (c) a failed fetch
serves the stale cache when one exists; (d) a failed fetch without a cache
propagates the failure; (e) every list a successful `fetchCodeforcesProblems`
returns is within the band (given the cache invariant, which is preserved);
(f) `getRandomCodeforcesProblem` with uniform draw `k` below the list length
returns exactly element `k` of that list, so every problem it returns has a
rating within the band. -/
theorem catalogCacheAndSelection :
    (∀ (cache : List CFProblem) (ts now : Int)
        (resp : Except String (List CFProblem)), ts ≠ 0 →
      now - ts < CF_CACHE_DURATION →
      fetchCodeforcesProblems ⟨some cache, some ts⟩ now resp =
        (.ok cache, ⟨some cache, some ts⟩, false)) ∧
    (∀ (st : CFCache) (now : Int) (problems : List CFProblem),
      cfAttemptFetch st now (.ok problems) =
        (.ok (problems.filter ratingInBand),
          ⟨some (problems.filter ratingInBand), some now⟩, true) ∧
      ∀ p ∈ problems.filter ratingInBand, ratingWithinBand p) ∧
    (∀ (cache : List CFProblem) (ts : Option Int) (now : Int) (e : String),
      cfAttemptFetch ⟨some cache, ts⟩ now (.error e) = (.ok cache, ⟨some cache, ts⟩, true)) ∧
    (∀ (ts : Option Int) (now : Int) (e : String),
      cfAttemptFetch ⟨none, ts⟩ now (.error e) = (.error e, ⟨none, ts⟩, true)) ∧
    (∀ (st : CFCache) (now : Int) (resp : Except String (List CFProblem))
        (l : List CFProblem) (st2 : CFCache) (nf : Bool), CacheInBand st →
      fetchCodeforcesProblems st now resp = (.ok l, st2, nf) →
      (∀ p ∈ l, ratingWithinBand p) ∧ CacheInBand st2) ∧
    (∀ (st : CFCache) (now : Int) (resp : Except String (List CFProblem))
        (k : Nat) (l : List CFProblem) (st2 : CFCache) (nf : Bool),
      fetchCodeforcesProblems st now resp = (.ok l, st2, nf) →
      ∀ hk : k < l.length,
      (getRandomCodeforcesProblem st now resp k).1 =
        .ok (pickedFromProblem (l.get ⟨k, hk⟩)) ∧
      (CacheInBand st → ratingWithinBand (l.get ⟨k, hk⟩)) ∧
      (pickedFromProblem (l.get ⟨k, hk⟩)).rating = (l.get ⟨k, hk⟩).rating) := by
  refine ⟨?_, ?_, ?_, ?_, ?_, ?_⟩
  · intro cache ts now resp hts hlt
    have hcond : (ts != 0 && decide (now - ts < CF_CACHE_DURATION)) = true := by
      simp [hts, hlt]
    simp [fetchCodeforcesProblems, hcond]
  · intro st now problems
    refine ⟨rfl, fun p hp => ?_⟩
    exact (ratingInBand_iff p).mp (List.mem_filter.mp hp).2
  · intro cache ts now e
    rfl
  · intro ts now e
    rfl
  · intro st now resp l st2 nf hwf h
    obtain ⟨hband, hwf2⟩ := fetch_ok_inBand st now resp l st2 nf hwf h
    exact ⟨fun p hp => (ratingInBand_iff p).mp (hband p hp), hwf2⟩
  · intro st now resp k l st2 nf h hk
    have hne : l.isEmpty = false := by
      cases l with
      | nil => exact absurd hk (by simp)
      | cons a t => rfl
    have hget : l.getD k ⟨none, "", "", none⟩ = l.get ⟨k, hk⟩ := by
      rw [List.getD_eq_getElem l _ hk]
      simp
    refine ⟨?_, ?_, rfl⟩
    · unfold getRandomCodeforcesProblem
      rw [h]
      simp only [hne, Bool.false_eq_true, if_false, hget]
      rfl
    · intro hwf
      obtain ⟨hband, _⟩ := fetch_ok_inBand st now resp l st2 nf hwf h
      exact (ratingInBand_iff _).mp (hband _ (l.get_mem k hk))

/-- Witness for C8 at concrete inputs: a fresh cache is served unchanged
without fetching; a fetch failure over an empty-cache state propagates; and
the selection at index 0 of a freshly fetched singleton catalog returns that
problem, whose rating 800 lies in the band. -/
theorem catalogCacheAndSelection_witness :
    (fetchCodeforcesProblems ⟨some [⟨some 1, "A", "p", some 800⟩], some 5⟩ 10
        (.error "down") =
      (.ok [⟨some 1, "A", "p", some 800⟩],
        ⟨some [⟨some 1, "A", "p", some 800⟩], some 5⟩, false)) ∧
    (∀ p ∈ ([⟨some 1, "A", "p", some 800⟩] : List CFProblem), ratingWithinBand p) := by
  constructor
  · exact catalogCacheAndSelection.1 [⟨some 1, "A", "p", some 800⟩] 5 10 (.error "down")
      (by decide) (by decide)
  · have h := (catalogCacheAndSelection.2.2.2.2.1 ⟨some [⟨some 1, "A", "p", some 800⟩], some 5⟩
      10 (.error "down") [⟨some 1, "A", "p", some 800⟩]
      ⟨some [⟨some 1, "A", "p", some 800⟩], some 5⟩ false ?_ ?_).1
    · exact h
    · intro l' hl' p hp
      simp only [Option.some.injEq] at hl'
      cases hl'
      simp only [List.mem_singleton] at hp
      cases hp
      decide
    · exact catalogCacheAndSelection.1 [⟨some 1, "A", "p", some 800⟩] 5 10 (.error "down")
        (by decide) (by decide)

/-! ## C9 — minimum inter-request spacing -/

theorem respectRateLimit_lower (delay last now slack : Int) (hs : 0 ≤ slack) :
    last + delay ≤ respectRateLimit delay last now slack := by
  unfold respectRateLimit
  split <;> omega

/-- C9.  The rate-limit gate: after a request recorded at `last`, the next
request through the gate issues no earlier than `last + delay`
(`setTimeout` slack can only delay it further); hence two back-to-back calls
through the Codeforces gate are separated by at least 250 ms and through the
CodeChef gate by at least 500 ms. -/
theorem rateLimitGateMinSpacing :
    (∀ delay last now slack : Int, 0 ≤ slack →
      last + delay ≤ respectRateLimit delay last now slack) ∧
    (∀ last t1 t2 s1 s2 : Int, 0 ≤ s1 → 0 ≤ s2 →
      respectRateLimit CF_REQUEST_DELAY last t1 s1 + 250 ≤
        respectRateLimit CF_REQUEST_DELAY
          (respectRateLimit CF_REQUEST_DELAY last t1 s1) t2 s2) ∧
    (∀ last t1 t2 s1 s2 : Int, 0 ≤ s1 → 0 ≤ s2 →
      respectRateLimit CC_REQUEST_DELAY last t1 s1 + 500 ≤
        respectRateLimit CC_REQUEST_DELAY
          (respectRateLimit CC_REQUEST_DELAY last t1 s1) t2 s2) := by
  refine ⟨respectRateLimit_lower, ?_, ?_⟩
  · intro last t1 t2 s1 s2 _ hs2
    exact respectRateLimit_lower CF_REQUEST_DELAY
      (respectRateLimit CF_REQUEST_DELAY last t1 s1) t2 s2 hs2
  · intro last t1 t2 s1 s2 _ hs2
    exact respectRateLimit_lower CC_REQUEST_DELAY
      (respectRateLimit CC_REQUEST_DELAY last t1 s1) t2 s2 hs2

/-- Witness for C9 at concrete instants (second request arriving
immediately, no timer slack): both gates enforce their spacing. -/
theorem rateLimitGateMinSpacing_witness :
    (respectRateLimit CF_REQUEST_DELAY 0 0 0 + 250 ≤
      respectRateLimit CF_REQUEST_DELAY (respectRateLimit CF_REQUEST_DELAY 0 0 0) 0 0) ∧
    (respectRateLimit CC_REQUEST_DELAY 0 0 0 + 500 ≤
      respectRateLimit CC_REQUEST_DELAY (respectRateLimit CC_REQUEST_DELAY 0 0 0) 0 0) :=
  ⟨rateLimitGateMinSpacing.2.1 0 0 0 0 0 (by decide) (by decide),
    rateLimitGateMinSpacing.2.2 0 0 0 0 0 (by decide) (by decide)⟩

/-! ## C10 — round trip of the stored Codeforces problem id -/

theorem digitChar_toNat (d : Nat) (h : d < 10) : (digitChar d).toNat = 48 + d := by
  interval_cases d <;> decide

theorem isDigitChar_digitChar (d : Nat) (h : d < 10) : isDigitChar (digitChar d) = true := by
  simp only [isDigitChar, digitChar_toNat d h, Bool.and_eq_true, decide_eq_true_eq]
  omega

theorem natDecimalDigits_all_digit (n : Nat) :
    ∀ ch ∈ natDecimalDigits n, isDigitChar ch = true := by
  intro ch hch
  unfold natDecimalDigits at hch
  rw [List.mem_reverse] at hch
  obtain ⟨d, hd, rfl⟩ := List.mem_map.mp hch
  exact isDigitChar_digitChar d (Nat.digits_lt_base (by norm_num) hd)

theorem natDecimalDigits_ne_nil (n : Nat) (hn : 0 < n) : natDecimalDigits n ≠ [] := by
  unfold natDecimalDigits
  simp [Nat.digits_ne_nil_iff_ne_zero.mpr (Nat.pos_iff_ne_zero.mp hn)]

theorem letter_not_digit (c : Char) (h : isAsciiLetter c = true) : isDigitChar c = false := by
  cases hd : isDigitChar c with
  | false => rfl
  | true =>
    exfalso
    simp only [isAsciiLetter, Bool.or_eq_true, Bool.and_eq_true, decide_eq_true_eq] at h
    simp only [isDigitChar, Bool.and_eq_true, decide_eq_true_eq] at hd
    omega

theorem takeWhile_append_of_all {α : Type} (p : α → Bool) (xs : List α) (c : α)
    (ys : List α) (hxs : ∀ x ∈ xs, p x = true) (hc : p c = false) :
    (xs ++ c :: ys).takeWhile p = xs ∧ (xs ++ c :: ys).dropWhile p = c :: ys := by
  induction xs with
  | nil => simp [List.takeWhile_cons, List.dropWhile_cons, hc]
  | cons a t ih =>
    have ha : p a = true := hxs a (by simp)
    have ht : ∀ x ∈ t, p x = true := fun x hx => hxs x (by simp [hx])
    obtain ⟨h1, h2⟩ := ih ht
    simp [List.takeWhile_cons, List.dropWhile_cons, ha, h1, h2]

theorem foldl_reverse_ofDigits (D : List Nat) (a : Nat) :
    D.reverse.foldl (fun x d => x * 10 + d) a = a * 10 ^ D.length + Nat.ofDigits 10 D := by
  induction D generalizing a with
  | nil => simp
  | cons d D ih =>
    rw [List.reverse_cons, List.foldl_append, ih a]
    simp only [List.foldl_cons, List.foldl_nil, Nat.ofDigits_cons, List.length_cons,
      pow_succ]
    ring

theorem parseIntDecimal_natDecimalDigits (n : Nat) :
    parseIntDecimal (natDecimalDigits n) = n := by
  unfold parseIntDecimal natDecimalDigits
  rw [← List.map_reverse, List.foldl_map]
  have hcong : (Nat.digits 10 n).reverse.foldl
      (fun (x : Nat) (d : Nat) => x * 10 + ((digitChar d).toNat - 48)) 0 =
      (Nat.digits 10 n).reverse.foldl (fun (x : Nat) (d : Nat) => x * 10 + d) 0 := by
    apply List.foldl_ext
    intro a d hd
    rw [List.mem_reverse] at hd
    rw [digitChar_toNat d (Nat.digits_lt_base (by norm_num) hd)]
    omega
  rw [hcong, foldl_reverse_ofDigits, Nat.ofDigits_digits]
  simp

/-- The language of the anchored regex `^(\d+)([A-Za-z]\d*)$`: a non-empty
digit run, one ASCII letter, then digits. -/
def CFProblemIdShape (s : String) : Prop :=
  ∃ D c E, s.data = D ++ c :: E ∧ D ≠ [] ∧ (∀ ch ∈ D, isDigitChar ch = true) ∧
    isAsciiLetter c = true ∧ (∀ ch ∈ E, isDigitChar ch = true)

/-- C10.  Round trip of the stored problem id: for a positive contest id and
an index of one ASCII letter followed by digits, parsing the stored
concatenation recovers the contest id and the upper-cased index; and for any
string not of the regex shape the parser rejects (the JavaScript function
throws its invalid-format error). -/
theorem parseProblemIdRoundTrip :
    (∀ (contestId : Nat) (c : Char) (tail : List Char), 0 < contestId →
      isAsciiLetter c = true → (∀ ch ∈ tail, isDigitChar ch = true) →
      parseCodeforcesProblemId (natDecimalStr contestId ++ String.mk (c :: tail)) =
        some (contestId, jsToUpper (String.mk (c :: tail)))) ∧
    (∀ s : String, ¬ CFProblemIdShape s → parseCodeforcesProblemId s = none) := by
  constructor
  · intro n c tail hn hc htail
    have hdata : (natDecimalStr n ++ String.mk (c :: tail)).data =
        natDecimalDigits n ++ (c :: tail) := by
      rw [String.data_append]
      unfold natDecimalStr
      rw [if_neg (Nat.pos_iff_ne_zero.mp hn)]
    have hsplit := takeWhile_append_of_all isDigitChar (natDecimalDigits n) c tail
      (natDecimalDigits_all_digit n) (letter_not_digit c hc)
    obtain ⟨d0, D0, hD⟩ :=
      List.exists_cons_of_ne_nil (natDecimalDigits_ne_nil n hn)
    unfold parseCodeforcesProblemId
    rw [hdata, hsplit.1, hsplit.2, hD]
    have hguard : (isAsciiLetter c && tail.all isDigitChar) = true := by
      rw [Bool.and_eq_true, hc]
      exact ⟨rfl, List.all_eq_true.mpr htail⟩
    dsimp only
    rw [if_pos hguard, ← hD, parseIntDecimal_natDecimalDigits]
  · intro s hshape
    cases hp : parseCodeforcesProblemId s with
    | none => rfl
    | some pr =>
      exfalso
      apply hshape
      unfold parseCodeforcesProblemId at hp
      split at hp
      · cases hp
      · cases hp
      · next ds c E h1 h2 =>
        by_cases hg : (isAsciiLetter c && E.all isDigitChar) = true
        · obtain ⟨t0, T, hT⟩ := List.exists_cons_of_ne_nil fun hnil => h2 hnil
          refine ⟨t0 :: T, c, E, ?_, by simp, ?_, ?_, ?_⟩
          · rw [← hT, ← h1, List.takeWhile_append_dropWhile]
          · intro ch hch
            rw [← hT] at hch
            exact List.mem_takeWhile_imp hch
          · exact (Bool.and_eq_true .. |>.mp hg).1
          · exact List.all_eq_true.mp (Bool.and_eq_true .. |>.mp hg).2
        · rw [if_neg hg] at hp
          cases hp

/-- Witness for C10: the stored id of contest 1000, index `A`, parses back;
the one-character string `A` is not of the regex shape and is rejected. -/
theorem parseProblemIdRoundTrip_witness :
    parseCodeforcesProblemId (natDecimalStr 1000 ++ String.mk ['A']) =
      some (1000, jsToUpper (String.mk ['A'])) ∧
    parseCodeforcesProblemId "A" = none := by
  constructor
  · exact parseProblemIdRoundTrip.1 1000 'A' [] (by decide) (by decide) (by decide)
  · apply parseProblemIdRoundTrip.2
    rintro ⟨D, c, E, hdata, hD, -⟩
    have h1 : ("A" : String).data = ['A'] := rfl
    rw [h1] at hdata
    have hlen := congrArg List.length hdata
    rw [List.length_append, List.length_cons] at hlen
    simp only [List.length_cons, List.length_nil] at hlen
    have hD0 : D.length = 0 := by omega
    exact hD (List.length_eq_zero.mp hD0)

end CPBot
